import Mathlib

/-!
Verification development for the credential-profile management core of the
account-switcher utility (`переключатель_аккаунтов_codex.py`).

The Python source is shallowly embedded: pure helpers become Lean functions,
the filesystem state touched by the registry / active-credential store becomes
an explicit record (`Sys`) threaded through the operations, and exceptions
become `Except` results.  Python stdlib calls used by the source
(`json.loads`, `base64.urlsafe_b64decode`, UTF-8 decoding, `str.strip`,
`str.split`, `sorted`) are modelled by executable Lean functions below, with
the engineering restrictions noted at each definition (integer-only JSON
numbers, no duplicate-key folding).
-/

/-- JSON values as produced by `json.loads`.  Numbers are modelled as integers
only; the credential documents handled by the tool contain strings and nested
objects, never fractional literals. -/
inductive JsonVal where
  | null
  | bool (b : Bool)
  | num (n : Int)
  | str (s : String)
  | arr (elems : List JsonVal)
  | obj (fields : List (String × JsonVal))

/-- Python `str.strip()` (default whitespace stripping) on a string. -/
def pyStrip (s : String) : String :=
  String.mk (((s.data.dropWhile Char.isWhitespace).reverse.dropWhile Char.isWhitespace).reverse)

/-- Split a character list on a separator, Python `str.split(sep)` style:
the result always has at least one (possibly empty) segment. -/
def splitListOn (sep : Char) : List Char → List (List Char)
  | [] => [[]]
  | c :: rest =>
    if c = sep then [] :: splitListOn sep rest
    else
      match splitListOn sep rest with
      | h :: t => (c :: h) :: t
      | [] => [[c]]

/-- Python `token.split(".")`. -/
def pySplitDot (s : String) : List String := (splitListOn '.' s.data).map String.mk

/-- Skip JSON whitespace. -/
def skipWsL : List Char → List Char
  | [] => []
  | c :: cs => if c = ' ' ∨ c = '\t' ∨ c = '\n' ∨ c = '\r' then skipWsL cs else c :: cs

/-- Value of a hexadecimal digit. -/
def hexVal (c : Char) : Option Nat :=
  if '0' ≤ c ∧ c ≤ '9' then some (c.toNat - 48)
  else if 'a' ≤ c ∧ c ≤ 'f' then some (c.toNat - 87)
  else if 'A' ≤ c ∧ c ≤ 'F' then some (c.toNat - 55)
  else none

/-- Parse the body of a JSON string literal (the opening quote already
consumed), accumulating decoded characters in reverse. -/
def parseJStr (acc : List Char) : List Char → Option (String × List Char)
  | '"' :: rest => some (String.mk acc.reverse, rest)
  | '\\' :: 'n' :: rest => parseJStr ('\n' :: acc) rest
  | '\\' :: 't' :: rest => parseJStr ('\t' :: acc) rest
  | '\\' :: 'r' :: rest => parseJStr ('\r' :: acc) rest
  | '\\' :: 'b' :: rest => parseJStr ('\x08' :: acc) rest
  | '\\' :: 'f' :: rest => parseJStr ('\x0c' :: acc) rest
  | '\\' :: '"' :: rest => parseJStr ('"' :: acc) rest
  | '\\' :: '\\' :: rest => parseJStr ('\\' :: acc) rest
  | '\\' :: '/' :: rest => parseJStr ('/' :: acc) rest
  | '\\' :: 'u' :: h1 :: h2 :: h3 :: h4 :: rest =>
    (match hexVal h1, hexVal h2, hexVal h3, hexVal h4 with
     | some a, some b, some c, some d =>
       let code := a * 4096 + b * 256 + c * 16 + d
       if 55296 ≤ code ∧ code < 57344 then none
       else parseJStr (Char.ofNat code :: acc) rest
     | _, _, _, _ => none)
  | '\\' :: _ => none
  | c :: rest => parseJStr (c :: acc) rest
  | [] => none

/-- Greedily consume decimal digits, returning the accumulated value. -/
def takeDigits : List Char → Nat → Nat × List Char
  | c :: cs, acc => if c.isDigit then takeDigits cs (acc * 10 + (c.toNat - 48)) else (acc, c :: cs)
  | [], acc => (acc, [])

/-- True when the remaining input would continue a numeric literal with a
fractional or exponent part (unsupported by this integer-only model). -/
def isFloatStart : List Char → Bool
  | c :: _ => c = '.' ∨ c = 'e' ∨ c = 'E'
  | [] => false

/-- Parse a JSON integer literal. -/
def parseJNum : List Char → Option (JsonVal × List Char)
  | '-' :: c :: cs =>
    if c.isDigit then
      let r := takeDigits (c :: cs) 0
      if isFloatStart r.2 then none else some (JsonVal.num (-(r.1 : Int)), r.2)
    else none
  | c :: cs =>
    if c.isDigit then
      let r := takeDigits (c :: cs) 0
      if isFloatStart r.2 then none else some (JsonVal.num (r.1 : Int), r.2)
    else none
  | [] => none

mutual

/-- Recursive-descent JSON value parse, with a fuel bound on nesting. -/
def parseJVal : Nat → List Char → Option (JsonVal × List Char)
  | 0, _ => none
  | Nat.succ fuel, s =>
    match skipWsL s with
    | 'n' :: 'u' :: 'l' :: 'l' :: rest => some (JsonVal.null, rest)
    | 't' :: 'r' :: 'u' :: 'e' :: rest => some (JsonVal.bool true, rest)
    | 'f' :: 'a' :: 'l' :: 's' :: 'e' :: rest => some (JsonVal.bool false, rest)
    | '"' :: rest => (parseJStr [] rest).map (fun r => (JsonVal.str r.1, r.2))
    | '[' :: rest =>
      (match skipWsL rest with
       | ']' :: rest2 => some (JsonVal.arr [], rest2)
       | s2 => (parseJElems fuel s2).map (fun r => (JsonVal.arr r.1, r.2)))
    | '\x7b' :: rest =>
      (match skipWsL rest with
       | '\x7d' :: rest2 => some (JsonVal.obj [], rest2)
       | s2 => (parseJMembers fuel s2).map (fun r => (JsonVal.obj r.1, r.2)))
    | s2 => parseJNum s2

/-- Comma-separated array elements up to the closing bracket. -/
def parseJElems : Nat → List Char → Option (List JsonVal × List Char)
  | 0, _ => none
  | Nat.succ fuel, s =>
    match parseJVal fuel s with
    | none => none
    | some (v, rest) =>
      match skipWsL rest with
      | ',' :: rest2 => (parseJElems fuel rest2).map (fun r => (v :: r.1, r.2))
      | ']' :: rest2 => some ([v], rest2)
      | _ => none

/-- Comma-separated object members up to the closing brace. -/
def parseJMembers : Nat → List Char → Option (List (String × JsonVal) × List Char)
  | 0, _ => none
  | Nat.succ fuel, s =>
    match skipWsL s with
    | '"' :: rest =>
      (match parseJStr [] rest with
       | none => none
       | some (k, rest1) =>
         match skipWsL rest1 with
         | ':' :: rest2 =>
           (match parseJVal fuel rest2 with
            | none => none
            | some (v, rest3) =>
              match skipWsL rest3 with
              | ',' :: rest4 => (parseJMembers fuel rest4).map (fun r => ((k, v) :: r.1, r.2))
              | '\x7d' :: rest4 => some ([(k, v)], rest4)
              | _ => none)
         | _ => none)
    | _ => none

end

/-- Model of Python `json.loads`: parse one JSON document, requiring only
trailing whitespace afterwards.  `none` models a raised `JSONDecodeError`. -/
def jsonParse (s : String) : Option JsonVal :=
  match parseJVal (2 * s.data.length + 2) s.data with
  | some (v, rest) => if skipWsL rest = [] then some v else none
  | none => none

/-- Six-bit value of a standard base64 alphabet character. -/
def b64CharVal (c : Char) : Option Nat :=
  if 'A' ≤ c ∧ c ≤ 'Z' then some (c.toNat - 65)
  else if 'a' ≤ c ∧ c ≤ 'z' then some (c.toNat - 71)
  else if '0' ≤ c ∧ c ≤ '9' then some (c.toNat + 4)
  else if c = '+' then some 62
  else if c = '/' then some 63
  else none

/-- Reassemble six-bit groups into bytes; a trailing group of two or three
values yields one or two bytes (the `==` / `=` padded cases). -/
def sixbitToBytes : List Nat → Option (List Nat)
  | [] => some []
  | [_] => none
  | [a, b] => some [a * 4 + b / 16]
  | [a, b, c] => some [a * 4 + b / 16, (b % 16) * 16 + c / 4]
  | a :: b :: c :: d :: rest =>
    (sixbitToBytes rest).map
      (fun t => (a * 4 + b / 16) :: ((b % 16) * 16 + c / 4) :: ((c % 4) * 64 + d) :: t)

/-- Model of `base64.urlsafe_b64decode(s.encode("ascii"))` on well-formed
inputs: non-ASCII input fails (the `.encode("ascii")` step), `-`/`_` are
translated to `+`/`/`, characters outside the alphabet are discarded, padding
must be trailing, at most two `=`, and pad the kept length to a multiple of
four.  Returns the decoded bytes. -/
def urlsafeB64decodeBytes (s : String) : Option (List Nat) :=
  if s.data.all (fun c => c.toNat < 128) then
    let tr := s.data.map (fun c => if c = '-' then '+' else if c = '_' then '/' else c)
    let kept := tr.filter (fun c => (b64CharVal c).isSome || c == '=')
    let body := kept.takeWhile (fun c => c != '=')
    let pad := kept.drop body.length
    if pad.all (fun c => c == '=') ∧ pad.length ≤ 2 ∧ (body.length + pad.length) % 4 = 0 then
      match body.mapM b64CharVal with
      | some vals => sixbitToBytes vals
      | none => none
    else none
  else none

/-- Strict UTF-8 decoding of a byte list (Python `bytes.decode("utf-8")`);
rejects stray continuation bytes, surrogates and out-of-range code points. -/
def utf8Decode : List Nat → Option (List Char)
  | [] => some []
  | b :: rest =>
    if b < 128 then (utf8Decode rest).map (fun cs => Char.ofNat b :: cs)
    else if 194 ≤ b ∧ b ≤ 223 then
      match rest with
      | b2 :: rest2 =>
        if 128 ≤ b2 ∧ b2 ≤ 191 then
          (utf8Decode rest2).map (fun cs => Char.ofNat ((b - 192) * 64 + (b2 - 128)) :: cs)
        else none
      | [] => none
    else if 224 ≤ b ∧ b ≤ 239 then
      match rest with
      | b2 :: b3 :: rest2 =>
        if 128 ≤ b2 ∧ b2 ≤ 191 ∧ 128 ≤ b3 ∧ b3 ≤ 191 then
          let code := (b - 224) * 4096 + (b2 - 128) * 64 + (b3 - 128)
          if code < 2048 ∨ (55296 ≤ code ∧ code < 57344) then none
          else (utf8Decode rest2).map (fun cs => Char.ofNat code :: cs)
        else none
      | _ => none
    else if 240 ≤ b ∧ b ≤ 244 then
      match rest with
      | b2 :: b3 :: b4 :: rest2 =>
        if 128 ≤ b2 ∧ b2 ≤ 191 ∧ 128 ≤ b3 ∧ b3 ≤ 191 ∧ 128 ≤ b4 ∧ b4 ≤ 191 then
          let code := (b - 240) * 262144 + (b2 - 128) * 4096 + (b3 - 128) * 64 + (b4 - 128)
          if code < 65536 ∨ 1114111 < code then none
          else (utf8Decode rest2).map (fun cs => Char.ofNat code :: cs)
        else none
      | _ => none
    else none

/-- The padding step of `_decode_jwt_payload`:
`payload_b64 += "=" * (-len(payload_b64) % 4)`. -/
def padB64 (s : String) : String :=
  s ++ String.mk (List.replicate ((4 - s.data.length % 4) % 4) '=')

/-- `_decode_jwt_payload`: split the token on `.`; with fewer than two
segments return `None`; otherwise pad the second segment, base64url-decode it,
decode as UTF-8, parse as JSON and keep the result only if it is a dict.  All
raised errors become `none`. -/
def decodeJwtPayload (token : String) : Option (List (String × JsonVal)) :=
  match pySplitDot token with
  | _ :: payloadB64 :: _ =>
    (match urlsafeB64decodeBytes (padB64 payloadB64) with
     | none => none
     | some bytes =>
       match utf8Decode bytes with
       | none => none
       | some chars =>
         match jsonParse (String.mk chars) with
         | some (JsonVal.obj fields) => some fields
         | _ => none)
  | _ => none

/-- Python `dict.get` on a parsed JSON object (first binding wins; the
documents handled here have unique keys). -/
def jGet (fields : List (String × JsonVal)) (k : String) : Option JsonVal :=
  (fields.find? (fun kv => kv.1 == k)).map (fun kv => kv.2)

/-- Python truthiness of a JSON value. -/
def jsonTruthy : JsonVal → Bool
  | JsonVal.null => false
  | JsonVal.bool b => b
  | JsonVal.num n => n != 0
  | JsonVal.str s => s != ""
  | JsonVal.arr xs => !xs.isEmpty
  | JsonVal.obj fs => !fs.isEmpty

/-- `AuthInfo` dataclass: normalized identity summary. -/
structure AuthInfo where
  account_id : Option String
  email : Option String
  login_type : Option String
deriving DecidableEq

/-- `auth.get("tokens") if isinstance(auth, dict) else None`, folded with the
later `isinstance(tokens, dict)` guards: the tokens object or `none`. -/
def tokensOf (auth : JsonVal) : Option (List (String × JsonVal)) :=
  match auth with
  | JsonVal.obj fs =>
    (match jGet fs "tokens" with
     | some (JsonVal.obj t) => some t
     | _ => none)
  | _ => none

/-- `v = tokens.get(k); if isinstance(v, str) and v:` — a non-empty string
field of a JSON object. -/
def strFieldNonEmpty (t : List (String × JsonVal)) (k : String) : Option String :=
  match jGet t k with
  | some (JsonVal.str v) => if v == "" then none else some v
  | _ => none

/-- The `account_id` extracted by `_extract_auth_info`. -/
def accountIdOf (auth : JsonVal) : Option String :=
  match tokensOf auth with
  | some t => strFieldNonEmpty t "account_id"
  | none => none

/-- The `id_token` extracted by `_extract_auth_info`. -/
def idTokenOf (auth : JsonVal) : Option String :=
  match tokensOf auth with
  | some t => strFieldNonEmpty t "id_token"
  | none => none

/-- `v = payload.get("email") or payload.get("preferred_username")` followed by
`if isinstance(v, str) and v:` — Python `or` falls through on falsy values. -/
def emailFromPayload (payload : List (String × JsonVal)) : Option String :=
  let v :=
    match jGet payload "email" with
    | some e => if jsonTruthy e then some e else jGet payload "preferred_username"
    | none => jGet payload "preferred_username"
  match v with
  | some (JsonVal.str s) => if s == "" then none else some s
  | _ => none

/-- The `email` extracted by `_extract_auth_info`. -/
def emailOf (auth : JsonVal) : Option String :=
  match idTokenOf auth with
  | some tok =>
    (match decodeJwtPayload tok with
     | some payload => emailFromPayload payload
     | none => none)
  | none => none

/-- `auth.get("OPENAI_API_KEY") if isinstance(auth, dict) else None`. -/
def apiKeyOf (auth : JsonVal) : Option JsonVal :=
  match auth with
  | JsonVal.obj fs => jGet fs "OPENAI_API_KEY"
  | _ => none

/-- The `elif` branch of the `login_type` computation: `"chatgpt"` when the
tokens object has a non-empty string `refresh_token`. -/
def refreshLogin (tokens : Option (List (String × JsonVal))) : Option String :=
  match tokens with
  | some t =>
    (match jGet t "refresh_token" with
     | some (JsonVal.str r) => if r == "" then none else some "chatgpt"
     | _ => none)
  | none => none

/-- The `login_type` computed by `_extract_auth_info`:
`if isinstance(api_key, str) and api_key.strip(): "api_key" elif ... : "chatgpt"
else None`. -/
def loginTypeOf (auth : JsonVal) : Option String :=
  match apiKeyOf auth with
  | some (JsonVal.str k) =>
    if pyStrip k == "" then refreshLogin (tokensOf auth) else some "api_key"
  | _ => refreshLogin (tokensOf auth)

/-- `_extract_auth_info`: total identity extraction from a credential
document.  `none` in `login_type` is the source's `None`, which the spec
names `unknown`. -/
def extractAuthInfo (auth : JsonVal) : AuthInfo :=
  ⟨accountIdOf auth, emailOf auth, loginTypeOf auth⟩

/-- Error kinds raised by the profile registry and active-credential store:
`notFound` is `FileNotFoundError`, `alreadyExists` is `FileExistsError`,
`invalidName` is the `ValueError` of name validation, `jsonError` is the
`json.JSONDecodeError` escaping `_load_json`. -/
inductive SwErr where
  | notFound (msg : String)
  | alreadyExists (msg : String)
  | invalidName (msg : String)
  | jsonError (msg : String)
deriving DecidableEq

/-- The kind of an error, forgetting its message. -/
inductive ErrKind where
  | notFound
  | alreadyExists
  | invalidName
  | jsonError
deriving DecidableEq

/-- Kind of a `SwErr`. -/
def errKind : SwErr → ErrKind
  | SwErr.notFound _ => ErrKind.notFound
  | SwErr.alreadyExists _ => ErrKind.alreadyExists
  | SwErr.invalidName _ => ErrKind.invalidName
  | SwErr.jsonError _ => ErrKind.jsonError

/-- Kind of the error of a result, `none` on success. -/
def errKindE {α : Type} : Except SwErr α → Option ErrKind
  | Except.error e => some (errKind e)
  | Except.ok _ => none

/-- `true` exactly on successful results. -/
def exceptIsOk {α : Type} : Except SwErr α → Bool
  | Except.ok _ => true
  | Except.error _ => false

/-- Python `s.endswith(c)` for a single character. -/
def endsWithChar (s : String) (c : Char) : Bool := s.data.getLast? == some c

/-- The character class `<>:"/\|?*` rejected on Windows. -/
def NT_INVALID_CHARS : List Char := ['<', '>', ':', '"', '/', '\\', '|', '?', '*']

/-- The checks of `_validate_profile_name` after the initial `strip()`.
`isNT` is `os.name == "nt"`. -/
def validateNoStrip (isNT : Bool) (name : String) : Except SwErr String :=
  if name == "" then Except.error (SwErr.invalidName "Имя профиля пустое.")
  else if name == "." || name == ".." then
    Except.error (SwErr.invalidName "Некорректное имя профиля.")
  else if name.data.contains '/' || name.data.contains '\\' then
    Except.error (SwErr.invalidName "Имя профиля не должно содержать / или \\.")
  else if isNT && name.data.any (fun c => NT_INVALID_CHARS.contains c) then
    Except.error (SwErr.invalidName "Имя профиля не должно содержать запрещённые символы")
  else if isNT && (endsWithChar name ' ' || endsWithChar name '.') then
    Except.error (SwErr.invalidName "Имя профиля не должно оканчиваться на пробел или точку.")
  else Except.ok name

/-- `_validate_profile_name`: strip the argument, run the checks on the
stripped string and return it. -/
def validateProfileName (isNT : Bool) (name : String) : Except SwErr String :=
  validateNoStrip isNT (pyStrip name)

/-- A directory entry under `account_profiles/`: its name and the contents of
its `auth.json` / `meta.json` when those files exist. -/
structure ProfileDirNode where
  name : String
  authFile : Option String
  metaFile : Option String
deriving DecidableEq

/-- Primitive content-visibility events on the filesystem.  `writeFile` is a
plain (non-atomic) content write — a crash mid-write leaves a partial file at
that path; `rename` is the atomic `os.replace`.  Directory creation and the
best-effort `chmod` hardening have no content visibility and are not
recorded. -/
inductive FsEvent where
  | writeFile (path : String) (content : String)
  | rename (src : String) (dst : String)
deriving DecidableEq

/-- The filesystem state the core touches: the active credential file, the
profile registry directory (its existence and entries), the backup area, and
a ghost log of content events. -/
structure Sys where
  auth : Option String
  profilesDirExists : Bool
  profiles : List ProfileDirNode
  backups : List (String × String)
  events : List FsEvent
deriving DecidableEq

/-- `CODEX_HOME / "auth.json"`. -/
def AUTH_PATH (home : String) : String := home ++ "/auth.json"

/-- `CODEX_HOME / "account_profiles"`. -/
def PROFILES_DIR (home : String) : String := home ++ "/account_profiles"

/-- `PROFILES_DIR / "_backups"`. -/
def BACKUPS_DIR (home : String) : String := PROFILES_DIR home ++ "/_backups"

/-- `PROFILES_DIR / name`. -/
def profileDirPath (home name : String) : String := PROFILES_DIR home ++ "/" ++ name

/-- `path.with_suffix(path.suffix + ".tmp")` for the file names used here. -/
def tmpName (p : String) : String := p ++ ".tmp"

/-- Events of `_write_text_private`: write the temporary sibling, then
`os.replace` it over the destination. -/
def writeTextPrivateEvents (path text : String) : List FsEvent :=
  [FsEvent.writeFile (tmpName path) text, FsEvent.rename (tmpName path) path]

/-- Events of `_copy_file_private`: same shape, content read from the source
first. -/
def copyFilePrivateEvents (dst content : String) : List FsEvent :=
  [FsEvent.writeFile (tmpName dst) content, FsEvent.rename (tmpName dst) dst]

/-- Insert-or-replace in an association list keyed by file name (what writing
a file at that name does to a directory). -/
def insertReplace (m : List (String × String)) (k v : String) : List (String × String) :=
  if (m.find? (fun kv => kv.1 == k)).isSome then
    m.map (fun kv => if kv.1 == k then (k, v) else kv)
  else m ++ [(k, v)]

/-- Lookup in an association list keyed by file name. -/
def assocLookup (m : List (String × String)) (k : String) : Option String :=
  (m.find? (fun kv => kv.1 == k)).map (fun kv => kv.2)

/-- `auth_<UTC-compact-timestamp>.json`. -/
def backupFileName (ts : String) : String := "auth_" ++ ts ++ ".json"

/-- Full path of the timestamped backup. -/
def backupFilePath (home ts : String) : String := BACKUPS_DIR home ++ "/" ++ backupFileName ts

/-- `_backup_current_auth`: if no active credential exists return `None`;
otherwise create the backups dir and `shutil.copy2` the active credential to
`auth_<ts>.json` (a direct write at the final name — within one second the
same name is overwritten).  `ts` is the formatted UTC timestamp. -/
def backupCurrentAuth (home ts : String) (s : Sys) : Sys × Option String :=
  match s.auth with
  | none => (s, none)
  | some content =>
    ({ s with
        backups := insertReplace s.backups (backupFileName ts) content,
        events := s.events ++ [FsEvent.writeFile (backupFilePath home ts) content] },
      some (backupFilePath home ts))

/-- The profile's `auth.json` content, when the profile directory and the file
exist (`profile.auth_path.exists()`). -/
def nodesAuthLookup (l : List ProfileDirNode) (n : String) : Option String :=
  (l.find? (fun e => e.name == n)).bind (fun e => e.authFile)

/-- `switch_to_profile`: fail with `FileNotFoundError` if the profile's
credential file is missing; otherwise ensure the home dir exists, back up the
current active credential, and atomically copy the profile's credential over
the active location. -/
def switchToProfile (home ts pname : String) (s : Sys) : Sys × Except SwErr Unit :=
  match nodesAuthLookup s.profiles pname with
  | none => (s, Except.error (SwErr.notFound ("Не найден файл профиля: " ++ pname)))
  | some content =>
    let s1 := (backupCurrentAuth home ts s).1
    ({ s1 with
        auth := some content,
        events := s1.events ++ copyFilePrivateEvents (AUTH_PATH home) content },
      Except.ok ())

/-- `_safe_mkdir(profile_dir)` on the registry listing: add an empty directory
node when none of that name exists. -/
def mkdirProfileDir (l : List ProfileDirNode) (n : String) : List ProfileDirNode :=
  if (l.find? (fun e => e.name == n)).isSome then l else l ++ [⟨n, none, none⟩]

/-- Write (or overwrite) the `auth.json` of the named profile directory. -/
def setProfileAuth (l : List ProfileDirNode) (n content : String) : List ProfileDirNode :=
  l.map (fun e => if e.name == n then ⟨e.name, some content, e.metaFile⟩ else e)

/-- Write (or overwrite) the `meta.json` of the named profile directory. -/
def setProfileMeta (l : List ProfileDirNode) (n content : String) : List ProfileDirNode :=
  l.map (fun e => if e.name == n then ⟨e.name, e.authFile, some content⟩ else e)

/-- A JSON string literal (the metadata fields contain no characters needing
escapes). -/
def jsonStrLit (s : String) : String := "\"" ++ s ++ "\""

/-- `null` or a JSON string literal. -/
def jsonOptStrLit : Option String → String
  | none => "null"
  | some s => jsonStrLit s

/-- `json.dumps(meta, ensure_ascii=False, indent=2)` at the fixed metadata
schema written by `save_current_as_profile`. -/
def metaJson (name createdAt : String) (info : AuthInfo) : String :=
  "\x7b\n  \"name\": " ++ jsonStrLit name ++
  ",\n  \"created_at\": " ++ jsonStrLit createdAt ++
  ",\n  \"account_id\": " ++ jsonOptStrLit info.account_id ++
  ",\n  \"email\": " ++ jsonOptStrLit info.email ++
  ",\n  \"login_type\": " ++ jsonOptStrLit info.login_type ++
  "\n\x7d"

/-- `read_auth_info_from_path` on file contents: `_load_json` raises on a
parse failure (`jsonError` here); a non-dict document yields the empty
summary. -/
def readAuthInfoFromContent (content : String) : Except SwErr AuthInfo :=
  match jsonParse content with
  | none => Except.error (SwErr.jsonError "invalid JSON in credential file")
  | some (JsonVal.obj fs) => Except.ok (extractAuthInfo (JsonVal.obj fs))
  | some _ => Except.ok ⟨none, none, none⟩

/-- What `list_profiles` and `save_current_as_profile` return per profile:
the name, the snapshot credential bytes, and the derived identity summary. -/
structure ProfileInfoM where
  name : String
  authContent : String
  info : AuthInfo
deriving DecidableEq

/-- `save_current_as_profile(name, overwrite=...)`: validate the name, fail
with `FileNotFoundError` if no active credential exists, create the registry
root, fail with `FileExistsError` if the target directory exists and
`overwrite` is false, then create the directory, copy the active credential
in via `_copy_file_private`, derive the identity summary from the copy
(raising if it is not JSON) and write the metadata via
`_write_text_private`.  `nowIso` is the `created_at` timestamp. -/
def saveCurrentAsProfile (home nowIso name : String) (isNT overwrite : Bool) (s : Sys) :
    Sys × Except SwErr ProfileInfoM :=
  match validateProfileName isNT name with
  | Except.error e => (s, Except.error e)
  | Except.ok vname =>
    match s.auth with
    | none =>
      (s, Except.error (SwErr.notFound ("Не найден файл авторизации: " ++ AUTH_PATH home)))
    | some content =>
      let s1 : Sys := { s with profilesDirExists := true }
      if (s1.profiles.find? (fun e => e.name == vname)).isSome ∧ ¬ overwrite then
        (s1, Except.error (SwErr.alreadyExists ("Профиль уже существует: " ++ vname)))
      else
        let authDst := profileDirPath home vname ++ "/auth.json"
        let s2 : Sys := { s1 with
          profiles := setProfileAuth (mkdirProfileDir s1.profiles vname) vname content,
          events := s1.events ++ copyFilePrivateEvents authDst content }
        match readAuthInfoFromContent content with
        | Except.error e => (s2, Except.error e)
        | Except.ok info =>
          let metaStr := metaJson vname nowIso info
          let metaDst := profileDirPath home vname ++ "/meta.json"
          let s3 : Sys := { s2 with
            profiles := setProfileMeta s2.profiles vname metaStr,
            events := s2.events ++ writeTextPrivateEvents metaDst metaStr }
          (s3, Except.ok ⟨vname, content, info⟩)

/-- `entry.name.startswith("_")`. -/
def startsWithUnderscore (s : String) : Bool :=
  match s.data with
  | c :: _ => c == '_'
  | [] => false

/-- Identity summary shown by `list_profiles` for a snapshot's contents:
parse errors and non-dict documents degrade to the empty summary. -/
def authInfoOfContent (content : String) : AuthInfo :=
  match jsonParse content with
  | some (JsonVal.obj fs) => extractAuthInfo (JsonVal.obj fs)
  | _ => ⟨none, none, none⟩

/-- One `list_profiles` loop step: skip `_`-prefixed directories and
directories without an `auth.json`. -/
def profileEntry (e : ProfileDirNode) : Option ProfileInfoM :=
  if startsWithUnderscore e.name then none
  else
    match e.authFile with
    | none => none
    | some content => some ⟨e.name, content, authInfoOfContent content⟩

/-- Insert into a list sorted by `le` (used to model Python's `sorted`). -/
def insertLe {α : Type} (le : α → α → Bool) (x : α) : List α → List α
  | [] => [x]
  | y :: ys => if le x y then x :: y :: ys else y :: insertLe le x ys

/-- Insertion sort modelling `sorted(...)`; only the fact that the result is
a permutation of the input matters below. -/
def sortByLe {α : Type} (le : α → α → Bool) (l : List α) : List α :=
  l.foldr (insertLe le) []

/-- Case-insensitive lexicographic comparison on code points
(`key=lambda p: p.name.lower()`). -/
def charListLe : List Char → List Char → Bool
  | [], _ => true
  | _ :: _, [] => false
  | a :: as, b :: bs =>
    if a.toNat < b.toNat then true
    else if b.toNat < a.toNat then false
    else charListLe as bs

/-- Sort order of `list_profiles`. -/
def profileLe (a b : ProfileDirNode) : Bool :=
  charListLe (a.name.data.map Char.toLower) (b.name.data.map Char.toLower)

/-- The visible entries derived from a directory listing. -/
def profileEntriesOf (l : List ProfileDirNode) : List ProfileInfoM :=
  l.filterMap profileEntry

/-- `list_profiles`: empty when the registry root does not exist; otherwise
the directory entries sorted case-insensitively, skipping `_`-prefixed names
and entries without a credential file. -/
def listProfilesM (s : Sys) : List ProfileInfoM :=
  if s.profilesDirExists then profileEntriesOf (sortByLe profileLe s.profiles) else []

/-- Which side a bridge copy writes, with the content copied.
`toWsl` writes the local (WSL-side) active credential, `toWin` the paired
host-side one. -/
inductive BridgeWrite where
  | toWsl (content : String)
  | toWin (content : String)
deriving DecidableEq

/-- Inputs of `_sync_wsl_windows_auth`: environment detection, configuration,
whether a paired host home was located, and the two credential files as
content together with their `st_mtime` (seconds, exact rational to model the
float timestamps). -/
structure BridgeEnv where
  isWsl : Bool
  codexHomeEnv : Option String
  autosyncEnv : Option String
  winHomeFound : Bool
  winAuth : Option (String × Rat)
  wslAuth : Option (String × Rat)
deriving DecidableEq

/-- Python truthiness of `os.environ.get(...)`: set and non-empty. -/
def envTruthy : Option String → Bool
  | some s => s != ""
  | none => false

/-- `(os.environ.get(...) or default)`. -/
def envOr (v : Option String) (dflt : String) : String :=
  match v with
  | some s => if s == "" then dflt else s
  | none => dflt

/-- Python `str.lower()`. -/
def pyLower (s : String) : String := String.mk (s.data.map Char.toLower)

/-- The normalized sync mode:
`(os.environ.get("CODEX_WSL_AUTOSYNC") or "bootstrap").strip().lower()`. -/
def bridgeMode (env : BridgeEnv) : String := pyLower (pyStrip (envOr env.autosyncEnv "bootstrap"))

/-- `_sync_wsl_windows_auth`: one-shot sync decision at startup.  Returns the
writes performed (with the content copied) and the status note.  Failure to
detect WSL, an explicit `CODEX_HOME`, a disabled mode, or a missing host home
all mean no action. -/
def syncWslWindowsAuth (env : BridgeEnv) : List BridgeWrite × Option String :=
  if ¬ env.isWsl then ([], none)
  else if envTruthy env.codexHomeEnv then ([], none)
  else
    let mode := bridgeMode env
    if mode == "0" || mode == "false" || mode == "off" || mode == "no" then ([], none)
    else if ¬ env.winHomeFound then ([], none)
    else if mode == "bootstrap" then
      match env.wslAuth with
      | some _ => ([], none)
      | none =>
        match env.winAuth with
        | none => ([], none)
        | some wc => ([BridgeWrite.toWsl wc.1], some "WSL: импортировал auth.json из Windows")
    else if mode == "newest" then
      match env.winAuth, env.wslAuth with
      | none, none => ([], none)
      | some wc, none => ([BridgeWrite.toWsl wc.1], some "WSL: импортировал auth.json из Windows")
      | none, some lc => ([BridgeWrite.toWin lc.1], some "WSL: экспортировал auth.json в Windows")
      | some wc, some lc =>
        if |wc.2 - lc.2| < 1 then ([], none)
        else if wc.2 > lc.2 then
          ([BridgeWrite.toWsl wc.1], some "WSL: обновил auth.json из Windows (новее)")
        else ([BridgeWrite.toWin lc.1], some "WSL: обновил auth.json в Windows (новее в WSL)")
    else ([], none)

/-- `true` when a path names a temporary sibling (ends in `.tmp`). -/
def isTmpPathB (p : String) : Bool := p.data.reverse.take 4 == ['p', 'm', 't', '.']

/-- The claim-level invariant over a content-event trace: every plain
(non-atomic) write targets a temporary sibling, so nothing partially written
is ever visible under a final destination name. -/
def allWritesViaTmp (evs : List FsEvent) : Bool :=
  evs.all fun ev =>
    match ev with
    | FsEvent.writeFile p _ => isTmpPathB p
    | FsEvent.rename _ _ => true

/-- Like `allWritesViaTmp` but tolerating direct writes at one named path. -/
def allWritesViaTmpExcept (excl : String) (evs : List FsEvent) : Bool :=
  evs.all fun ev =>
    match ev with
    | FsEvent.writeFile p _ => isTmpPathB p || p == excl
    | FsEvent.rename _ _ => true


/-- Spec-side formulation (from the spec's words in section 4.2) of the value of
`login_type`: a string API key with non-whitespace content wins, else a
non-empty string refresh token means `chatgpt`, else unknown (`none`). -/
def apiKeyNonBlank (auth : JsonVal) : Bool :=
  match auth with
  | JsonVal.obj fs =>
    (match jGet fs "OPENAI_API_KEY" with
     | some (JsonVal.str k) => pyStrip k != ""
     | _ => false)
  | _ => false

/-- Spec-side check: the tokens object carries a non-empty string
`refresh_token`. -/
def refreshNonEmptyB (auth : JsonVal) : Bool :=
  match tokensOf auth with
  | some t =>
    (match jGet t "refresh_token" with
     | some (JsonVal.str r) => r != ""
     | _ => false)
  | none => false

/-- Spec-side `login_type` precedence, written from the (amended) spec words:
API key first, then refresh token, else unknown. -/
def loginTypeSpec (auth : JsonVal) : Option String :=
  if apiKeyNonBlank auth then some "api_key"
  else if refreshNonEmptyB auth then some "chatgpt"
  else none

/-- Spec-side formulation (from the spec's words in section 4.2) of the payload
pipeline applied to the second token segment: pad with `=` to a multiple of
four characters, base64url-decode, decode UTF-8, parse JSON, require a dict;
any failure yields nothing. -/
def decodeJwtSegmentSpec (seg : String) : Option (List (String × JsonVal)) :=
  match urlsafeB64decodeBytes (padB64 seg) with
  | none => none
  | some bytes =>
    match utf8Decode bytes with
    | none => none
    | some chars =>
      match jsonParse (String.mk chars) with
      | some (JsonVal.obj fields) => some fields
      | _ => none

/-- `name` of a successful save result. -/
def resultName : Except SwErr ProfileInfoM → Option String
  | Except.ok i => some i.name
  | Except.error _ => none

theorem strData_append (a b : String) : (a ++ b).data = a.data ++ b.data := by
  cases a
  cases b
  rfl

theorem isTmpPathB_tmpName (p : String) : isTmpPathB (tmpName p) = true := by
  have h : (tmpName p).data = p.data ++ ['.', 't', 'm', 'p'] := strData_append p ".tmp"
  simp [isTmpPathB, h, List.reverse_append, List.take]

theorem insertLe_perm {α : Type} (le : α → α → Bool) (x : α) (l : List α) :
    List.Perm (insertLe le x l) (x :: l) := by
  induction l with
  | nil => exact List.Perm.refl _
  | cons y ys ih =>
    simp only [insertLe]
    split
    · exact List.Perm.refl _
    · exact (ih.cons y).trans (List.Perm.swap x y ys)

theorem sortByLe_perm {α : Type} (le : α → α → Bool) (l : List α) :
    List.Perm (sortByLe le l) l := by
  induction l with
  | nil => exact List.Perm.refl _
  | cons x xs ih => exact (insertLe_perm le x (sortByLe le xs)).trans (ih.cons x)

theorem insertReplace_fresh (m : List (String × String)) (k v : String)
    (h : m.find? (fun kv => kv.1 == k) = none) :
    insertReplace m k v = m ++ [(k, v)] := by
  simp [insertReplace, h]

theorem assocLookup_append_self (m : List (String × String)) (k v : String)
    (h : m.find? (fun kv => kv.1 == k) = none) :
    assocLookup (m ++ [(k, v)]) k = some v := by
  simp [assocLookup, List.find?_append, h]

theorem assocLookup_append_other (m : List (String × String)) (k v k' : String)
    (h : k' ≠ k) :
    assocLookup (m ++ [(k, v)]) k' = assocLookup m k' := by
  have hk : ((k, v).1 == k') = false := beq_eq_false_iff_ne.mpr (Ne.symm h)
  simp [assocLookup, List.find?_append, hk]

theorem profileEntry_name {e : ProfileDirNode} {x : ProfileInfoM}
    (h : profileEntry e = some x) : x.name = e.name := by
  unfold profileEntry at h
  split at h
  · exact absurd h (by simp)
  · rcases he : e.authFile with _ | c
    · rw [he] at h
      exact absurd h (by simp)
    · rw [he] at h
      cases h
      rfl

theorem entries_filter_nil {l : List ProfileDirNode} {n : String}
    (h : ∀ e ∈ l, ¬ (e.name = n)) :
    (profileEntriesOf l).filter (fun x => x.name == n) = [] := by
  rw [List.filter_eq_nil_iff]
  intro x hx
  rw [profileEntriesOf, List.mem_filterMap] at hx
  obtain ⟨e, he, hfe⟩ := hx
  have := profileEntry_name hfe
  simp only [beq_iff_eq]
  rw [this]
  exact h e he

theorem setProfileAuth_of_not_mem {l : List ProfileDirNode} {n a : String}
    (h : ∀ e ∈ l, ¬ (e.name = n)) : setProfileAuth l n a = l := by
  induction l with
  | nil => rfl
  | cons e l ih =>
    have he : (e.name == n) = false := beq_eq_false_iff_ne.mpr (h e (List.mem_cons_self e l))
    have ht := ih fun e' he' => h e' (List.mem_cons_of_mem e he')
    simp only [setProfileAuth, List.map_cons] at ht ⊢
    rw [he, ht]
    simp

theorem profileEntry_ignores_meta (e : ProfileDirNode) (m : Option String) :
    profileEntry ⟨e.name, e.authFile, m⟩ = profileEntry e := by
  rfl

theorem profileEntriesOf_setMeta (l : List ProfileDirNode) (n m : String) :
    profileEntriesOf (setProfileMeta l n m) = profileEntriesOf l := by
  induction l with
  | nil => rfl
  | cons e l ih =>
    simp only [profileEntriesOf, setProfileMeta, List.map_cons, List.filterMap_cons] at ih ⊢
    have hh :
        profileEntry (if e.name == n then ⟨e.name, e.authFile, some m⟩ else e) = profileEntry e := by
      split
      · exact profileEntry_ignores_meta e (some m)
      · rfl
    rw [hh, ih]

theorem entries_after_save_found {l : List ProfileDirNode} {n a : String}
    (hnd : (l.map (fun e => e.name)).Nodup)
    (hus : startsWithUnderscore n = false)
    (hmem : (l.find? (fun e => e.name == n)).isSome = true) :
    (profileEntriesOf (setProfileAuth l n a)).filter (fun x => x.name == n)
      = [⟨n, a, authInfoOfContent a⟩] := by
  induction l with
  | nil => simp [List.find?] at hmem
  | cons e l ih =>
    by_cases he : e.name = n
    · have heb : (e.name == n) = true := beq_iff_eq.mpr he
      have hnd2 := hnd
      simp only [List.map_cons, List.nodup_cons] at hnd2
      have hrest : ∀ e' ∈ l, ¬ (e'.name = n) := by
        intro e' he' hq
        exact hnd2.1 (by
          have hx : e.name = e'.name := by rw [he, hq]
          rw [hx]
          exact List.mem_map_of_mem (fun x => x.name) he')
      have htail : setProfileAuth l n a = l := setProfileAuth_of_not_mem hrest
      have hstep : setProfileAuth (e :: l) n a =
          (⟨e.name, some a, e.metaFile⟩ : ProfileDirNode) :: l := by
        show (if e.name == n then (⟨e.name, some a, e.metaFile⟩ : ProfileDirNode) else e)
            :: setProfileAuth l n a = _
        rw [if_pos heb, htail]
      rw [hstep]
      simp only [profileEntriesOf, List.filterMap_cons]
      have hpe : profileEntry ⟨e.name, some a, e.metaFile⟩
          = some ⟨e.name, a, authInfoOfContent a⟩ := by
        have hu : startsWithUnderscore e.name = false := by rw [he]; exact hus
        simp [profileEntry, hu]
      rw [hpe]
      rw [List.filter_cons]
      have hx : ((⟨e.name, a, authInfoOfContent a⟩ : ProfileInfoM).name == n) = true := heb
      rw [hx]
      have h1 := entries_filter_nil (l := l) (n := n) hrest
      simp only [profileEntriesOf] at h1
      simp [h1, he]
    · have heb : (e.name == n) = false := beq_eq_false_iff_ne.mpr he
      have hmem' : (l.find? (fun e => e.name == n)).isSome = true := by
        rw [List.find?_cons_of_neg l (by simp [heb])] at hmem
        exact hmem
      have hnd' : (l.map (fun e => e.name)).Nodup := by
        simp only [List.map_cons, List.nodup_cons] at hnd
        exact hnd.2
      have hstep : setProfileAuth (e :: l) n a = e :: setProfileAuth l n a := by
        show (if e.name == n then (⟨e.name, some a, e.metaFile⟩ : ProfileDirNode) else e)
            :: setProfileAuth l n a = _
        rw [if_neg (by simp [heb])]
      rw [hstep]
      simp only [profileEntriesOf, List.filterMap_cons]
      have ihr := ih hnd' hmem'
      simp only [profileEntriesOf] at ihr
      rcases hpe : profileEntry e with _ | x
      · exact ihr
      · rw [List.filter_cons]
        have hx : (x.name == n) = false := by
          rw [profileEntry_name hpe]
          exact heb
        rw [hx]
        simpa using ihr

theorem entries_after_save (l : List ProfileDirNode) (n a : String)
    (hnd : (l.map (fun e => e.name)).Nodup)
    (hus : startsWithUnderscore n = false) :
    (profileEntriesOf (setProfileAuth (mkdirProfileDir l n) n a)).filter (fun x => x.name == n)
      = [⟨n, a, authInfoOfContent a⟩] := by
  rcases hf : l.find? (fun e => e.name == n) with _ | e0
  · have hne : ∀ e ∈ l, ¬ (e.name = n) := by
      intro e he hq
      exact (List.find?_eq_none.mp hf e he) (beq_iff_eq.mpr hq)
    have hmk : mkdirProfileDir l n = l ++ [⟨n, none, none⟩] := by
      simp [mkdirProfileDir, hf]
    rw [hmk]
    have hsplit : setProfileAuth (l ++ [⟨n, none, none⟩]) n a
        = l ++ [(⟨n, some a, none⟩ : ProfileDirNode)] := by
      show List.map _ (l ++ [⟨n, none, none⟩]) = _
      rw [List.map_append]
      have h1 : setProfileAuth l n a = l := setProfileAuth_of_not_mem hne
      simp only [setProfileAuth] at h1
      rw [h1]
      simp only [List.map_cons, List.map_nil]
      rw [if_pos (beq_self_eq_true n)]
    rw [hsplit]
    simp only [profileEntriesOf, List.filterMap_append, List.filter_append]
    have h1 := entries_filter_nil (l := l) (n := n) hne
    simp only [profileEntriesOf] at h1
    rw [h1]
    have hpe : profileEntry ⟨n, some a, none⟩ = some ⟨n, a, authInfoOfContent a⟩ := by
      simp [profileEntry, hus]
    simp [hpe]
  · have hmem : (l.find? (fun e => e.name == n)).isSome = true := by
      rw [hf]
      rfl
    have hmk : mkdirProfileDir l n = l := by
      simp [mkdirProfileDir, hf]
    rw [hmk]
    exact entries_after_save_found hnd hus hmem

theorem nodesAuthLookup_setMeta (l : List ProfileDirNode) (n m k : String) :
    nodesAuthLookup (setProfileMeta l n m) k = nodesAuthLookup l k := by
  induction l with
  | nil => rfl
  | cons e l ih =>
    have hstep : setProfileMeta (e :: l) n m =
        (if e.name == n then (⟨e.name, e.authFile, some m⟩ : ProfileDirNode) else e)
          :: setProfileMeta l n m := rfl
    rw [hstep]
    by_cases hk : e.name = k
    · have hkb : (e.name == k) = true := beq_iff_eq.mpr hk
      by_cases hn : e.name = n
      · have hnb : (e.name == n) = true := beq_iff_eq.mpr hn
        rw [if_pos hnb]
        simp [nodesAuthLookup, List.find?, hkb]
      · have hnb : (e.name == n) = false := beq_eq_false_iff_ne.mpr hn
        rw [if_neg (by simp [hnb])]
        simp [nodesAuthLookup, List.find?, hkb]
    · have hkb : (e.name == k) = false := beq_eq_false_iff_ne.mpr hk
      have htl : nodesAuthLookup (setProfileMeta l n m) k = nodesAuthLookup l k := ih
      by_cases hn : e.name = n
      · have hnb : (e.name == n) = true := beq_iff_eq.mpr hn
        rw [if_pos hnb]
        simpa [nodesAuthLookup, List.find?, hkb] using htl
      · have hnb : (e.name == n) = false := beq_eq_false_iff_ne.mpr hn
        rw [if_neg (by simp [hnb])]
        simpa [nodesAuthLookup, List.find?, hkb] using htl

theorem nodesAuthLookup_save (l : List ProfileDirNode) (n a : String) :
    nodesAuthLookup (setProfileAuth (mkdirProfileDir l n) n a) n = some a := by
  induction l with
  | nil =>
    simp [mkdirProfileDir, setProfileAuth, nodesAuthLookup, List.find?]
  | cons e l ih =>
    by_cases he : e.name = n
    · have heb : (e.name == n) = true := beq_iff_eq.mpr he
      have hmk : mkdirProfileDir (e :: l) n = e :: l := by
        simp [mkdirProfileDir, List.find?, heb]
      rw [hmk]
      have hstep : setProfileAuth (e :: l) n a =
          (⟨e.name, some a, e.metaFile⟩ : ProfileDirNode) :: setProfileAuth l n a := by
        show (if e.name == n then (⟨e.name, some a, e.metaFile⟩ : ProfileDirNode) else e)
            :: setProfileAuth l n a = _
        rw [if_pos heb]
      rw [hstep]
      simp [nodesAuthLookup, List.find?, heb]
    · have heb : (e.name == n) = false := beq_eq_false_iff_ne.mpr he
      have hfind : ((e :: l).find? (fun x => x.name == n)) = l.find? (fun x => x.name == n) :=
        List.find?_cons_of_neg l (by simp [heb])
      rcases hq : (l.find? (fun x => x.name == n)).isSome with _ | _
      · have hmk : mkdirProfileDir (e :: l) n = e :: (l ++ [⟨n, none, none⟩]) := by
        
          simp [mkdirProfileDir, hfind, hq]
        have hmk' : mkdirProfileDir l n = l ++ [⟨n, none, none⟩] := by
          simp [mkdirProfileDir, hq]
        rw [hmk]
        have hstep : setProfileAuth (e :: (l ++ [⟨n, none, none⟩])) n a =
            e :: setProfileAuth (l ++ [⟨n, none, none⟩]) n a := by
          show (if e.name == n then (⟨e.name, some a, e.metaFile⟩ : ProfileDirNode) else e)
              :: setProfileAuth (l ++ [⟨n, none, none⟩]) n a = _
          rw [if_neg (by simp [heb])]
        rw [hstep]
        have hskip : nodesAuthLookup (e :: setProfileAuth (l ++ [⟨n, none, none⟩]) n a) n
            = nodesAuthLookup (setProfileAuth (l ++ [⟨n, none, none⟩]) n a) n := by
          simp [nodesAuthLookup, List.find?, heb]
        rw [hskip, ← hmk']
        exact ih
      · have hmk : mkdirProfileDir (e :: l) n = e :: l := by
          simp [mkdirProfileDir, hfind, hq]
        have hmk' : mkdirProfileDir l n = l := by
          simp [mkdirProfileDir, hq]
        rw [hmk]
        have hstep : setProfileAuth (e :: l) n a = e :: setProfileAuth l n a := by
          show (if e.name == n then (⟨e.name, some a, e.metaFile⟩ : ProfileDirNode) else e)
              :: setProfileAuth l n a = _
          rw [if_neg (by simp [heb])]
        rw [hstep]
        have hskip : nodesAuthLookup (e :: setProfileAuth l n a) n
            = nodesAuthLookup (setProfileAuth l n a) n := by
          simp [nodesAuthLookup, List.find?, heb]
        rw [hskip, ← hmk']
        exact ih

theorem refreshLogin_spec (auth : JsonVal) :
    refreshLogin (tokensOf auth) = (if refreshNonEmptyB auth then some "chatgpt" else none) := by
  rcases hto : tokensOf auth with _ | t
  · simp [refreshLogin, refreshNonEmptyB, hto]
  · rcases hg : jGet t "refresh_token" with _ | v
    · simp [refreshLogin, refreshNonEmptyB, hto, hg]
    · rcases v with _ | b | nn | r | xs | fs
      · simp [refreshLogin, refreshNonEmptyB, hto, hg]
      · simp [refreshLogin, refreshNonEmptyB, hto, hg]
      · simp [refreshLogin, refreshNonEmptyB, hto, hg]
      · by_cases hr : r = "" <;> simp [refreshLogin, refreshNonEmptyB, hto, hg, hr]
      · simp [refreshLogin, refreshNonEmptyB, hto, hg]
      · simp [refreshLogin, refreshNonEmptyB, hto, hg]

theorem validateProfileName_ok_eq {isNT : Bool} {name v : String}
    (h : validateProfileName isNT name = Except.ok v) : v = pyStrip name := by
  unfold validateProfileName validateNoStrip at h
  split_ifs at h <;> simp at h
  exact h.symm

theorem listProfiles_filter_singleton {L : List ProfileDirNode} {p : ProfileInfoM → Bool}
    {x : ProfileInfoM} (h : (profileEntriesOf L).filter p = [x]) :
    (profileEntriesOf (sortByLe profileLe L)).filter p = [x] := by
  have hperm := ((sortByLe_perm profileLe L).filterMap profileEntry).filter p
  simp only [profileEntriesOf] at h ⊢
  rw [h] at hperm
  exact List.perm_singleton.mp hperm

/-- C5 counterexample: the claim says that on case-insensitive platforms a name
ending in a space is rejected, but validation strips the name first, so
`"work "` is accepted (as `"work"`) even with `os.name == "nt"`. -/
theorem validate_accepts_trailing_space :
    validateProfileName true "work " = Except.ok "work" ∧ endsWithChar "work " ' ' = true := by
  constructor
  · rfl
  · decide

/-- C5 (amended): validation rejects — always with `InvalidName` — the empty
name, `"."`, `".."`, any name whose stripped form contains `/` or `\`, and on
case-insensitive platforms names whose stripped form contains a reserved
character or ends in a dot; ordinary names like `"work"` and `"personal-2"`
are accepted.  A trailing space never survives the initial strip, so a name
ending in a space is accepted in its stripped form rather than rejected. -/
theorem validate_name_rules (isNT : Bool) (name : String) :
    errKindE (validateProfileName isNT "") = some ErrKind.invalidName ∧
    errKindE (validateProfileName isNT ".") = some ErrKind.invalidName ∧
    errKindE (validateProfileName isNT "..") = some ErrKind.invalidName ∧
    ((pyStrip name).data.contains '/' = true ∨ (pyStrip name).data.contains '\\' = true →
      errKindE (validateProfileName isNT name) = some ErrKind.invalidName) ∧
    (isNT = true → (pyStrip name).data.any (fun c => NT_INVALID_CHARS.contains c) = true →
      errKindE (validateProfileName isNT name) = some ErrKind.invalidName) ∧
    (isNT = true → endsWithChar (pyStrip name) '.' = true →
      errKindE (validateProfileName isNT name) = some ErrKind.invalidName) ∧
    validateProfileName isNT "work" = Except.ok "work" ∧
    validateProfileName isNT "personal-2" = Except.ok "personal-2" ∧
    validateProfileName true "work " = Except.ok "work" := by
  refine ⟨rfl, rfl, rfl, ?_, ?_, ?_, ?_, ?_, rfl⟩
  · intro hsep
    unfold validateProfileName validateNoStrip
    split_ifs with h1 h2 h3 h4 h5 <;> try rfl
    exact absurd (by rcases hsep with h | h
                     · rw [h, Bool.true_or]
                     · rw [h, Bool.or_true]) h3
  · intro hNT hch
    unfold validateProfileName validateNoStrip
    split_ifs with h1 h2 h3 h4 h5 <;> try rfl
    exact absurd (by rw [hNT, hch]; rfl) h4
  · intro hNT hdot
    unfold validateProfileName validateNoStrip
    split_ifs with h1 h2 h3 h4 h5 <;> try rfl
    exact absurd (by rw [hNT, hdot, Bool.or_true]; rfl) h5
  · cases isNT <;> rfl
  · cases isNT <;> rfl

/-- Witness for C5: `"a/b"` contains a separator and is rejected with
`InvalidName`. -/
theorem validate_name_rules_witness :
    (pyStrip "a/b").data.contains '/' = true ∧
    errKindE (validateProfileName true "a/b") = some ErrKind.invalidName :=
  ⟨by decide, (validate_name_rules true "a/b").2.2.2.1 (Or.inl (by decide))⟩

/-- C10: `_validate_profile_name` first strips its argument; every subsequent
check runs on the stripped string, a successful validation returns exactly the
stripped string, a whitespace-only name is rejected as empty (`InvalidName`),
and a successful save stores the active credential under the stripped name. -/
theorem validate_strips_name (isNT : Bool) (name : String) :
    validateProfileName isNT name = validateNoStrip isNT (pyStrip name) ∧
    (∀ v, validateProfileName isNT name = Except.ok v → v = pyStrip name) ∧
    (pyStrip name = "" → errKindE (validateProfileName isNT name) = some ErrKind.invalidName) ∧
    (∀ home nowIso ow s,
      exceptIsOk (saveCurrentAsProfile home nowIso name isNT ow s).2 = true →
      resultName (saveCurrentAsProfile home nowIso name isNT ow s).2 = some (pyStrip name) ∧
      nodesAuthLookup (saveCurrentAsProfile home nowIso name isNT ow s).1.profiles (pyStrip name)
        = s.auth) := by
  refine ⟨rfl, ?_, ?_, ?_⟩
  · intro v h
    exact validateProfileName_ok_eq h
  · intro h
    show errKindE (validateNoStrip isNT (pyStrip name)) = some ErrKind.invalidName
    rw [h]
    rfl
  · intro home nowIso ow s hok
    rcases hv : validateProfileName isNT name with e | vname
    · rw [saveCurrentAsProfile, hv] at hok
      simp [exceptIsOk] at hok
    · have hvn : vname = pyStrip name := validateProfileName_ok_eq hv
      rcases ha : s.auth with _ | a
      · rw [saveCurrentAsProfile, hv, ha] at hok
        simp [exceptIsOk] at hok
      · by_cases hex : (s.profiles.find? (fun e => e.name == vname)).isSome ∧ ¬ ow
        · rw [saveCurrentAsProfile, hv, ha] at hok
          simp only [if_pos hex, exceptIsOk] at hok
          exact Bool.noConfusion hok
        · rcases hr : readAuthInfoFromContent a with e | info
          · rw [saveCurrentAsProfile, hv, ha] at hok
            simp only [if_neg hex, hr, exceptIsOk] at hok
            exact Bool.noConfusion hok
          · rw [saveCurrentAsProfile, hv, ha]
            simp only [if_neg hex, hr]
            constructor
            · simp [resultName, hvn]
            · rw [← hvn]
              rw [nodesAuthLookup_setMeta, nodesAuthLookup_save]

/-- Witness for C10: saving with the name `"  work  "` succeeds and creates
the profile under the stripped name `"work"`, holding the active credential
bytes. -/
theorem validate_strips_name_witness :
    pyStrip "  work  " = "work" ∧
    resultName
      (saveCurrentAsProfile "/tmp/h" "t" "  work  " false false
        ⟨some "null", false, [], [], []⟩).2 = some "work" ∧
    nodesAuthLookup
      (saveCurrentAsProfile "/tmp/h" "t" "  work  " false false
        ⟨some "null", false, [], [], []⟩).1.profiles "work" = some "null" := by
  have h := (validate_strips_name false "  work  ").2.2.2 "/tmp/h" "t" false
    ⟨some "null", false, [], [], []⟩ (by rfl)
  exact ⟨by decide, h.1, h.2⟩

/-- C6 counterexample: a document whose API key field is the non-empty string
`" "` yields `login_type = None` (unknown), because the source tests
`api_key.strip()`, not mere non-emptiness; the claim as stated would require
`api_key`. -/
theorem login_type_blank_api_key :
    (extractAuthInfo (JsonVal.obj [("OPENAI_API_KEY", JsonVal.str " ")])).login_type = none ∧
    (" " : String) ≠ "" :=
  ⟨rfl, by decide⟩

/-- C6 (amended): `login_type` is assigned by precedence — `api_key` when the
API key field is a string with non-whitespace content (non-empty after
stripping), else `chatgpt` when the tokens' `refresh_token` is a non-empty
string, else unknown (`none`).  The empty document yields no account id, no
email and unknown type; a document whose only field is an `OPENAI_API_KEY`
with non-blank content yields `api_key`. -/
theorem login_type_precedence (auth : JsonVal) :
    (extractAuthInfo auth).login_type = loginTypeSpec auth ∧
    extractAuthInfo (JsonVal.obj []) = ⟨none, none, none⟩ ∧
    (∀ k : String, (pyStrip k == "") = false →
      (extractAuthInfo (JsonVal.obj [("OPENAI_API_KEY", JsonVal.str k)])).login_type
        = some "api_key") := by
  refine ⟨?_, rfl, ?_⟩
  · show loginTypeOf auth = loginTypeSpec auth
    rcases auth with _ | b | nn | sv | xs | fs
    · simp [loginTypeOf, apiKeyOf, loginTypeSpec, apiKeyNonBlank, refreshLogin_spec]
    · simp [loginTypeOf, apiKeyOf, loginTypeSpec, apiKeyNonBlank, refreshLogin_spec]
    · simp [loginTypeOf, apiKeyOf, loginTypeSpec, apiKeyNonBlank, refreshLogin_spec]
    · simp [loginTypeOf, apiKeyOf, loginTypeSpec, apiKeyNonBlank, refreshLogin_spec]
    · simp [loginTypeOf, apiKeyOf, loginTypeSpec, apiKeyNonBlank, refreshLogin_spec]
    · rcases hk : jGet fs "OPENAI_API_KEY" with _ | v
      · simp [loginTypeOf, apiKeyOf, loginTypeSpec, apiKeyNonBlank, hk, refreshLogin_spec]
      · rcases v with _ | b | nn | k | xs2 | fs2
        · simp [loginTypeOf, apiKeyOf, loginTypeSpec, apiKeyNonBlank, hk, refreshLogin_spec]
        · simp [loginTypeOf, apiKeyOf, loginTypeSpec, apiKeyNonBlank, hk, refreshLogin_spec]
        · simp [loginTypeOf, apiKeyOf, loginTypeSpec, apiKeyNonBlank, hk, refreshLogin_spec]
        · by_cases hs : pyStrip k = "" <;>
            simp [loginTypeOf, apiKeyOf, loginTypeSpec, apiKeyNonBlank, hk, hs, refreshLogin_spec]
        · simp [loginTypeOf, apiKeyOf, loginTypeSpec, apiKeyNonBlank, hk, refreshLogin_spec]
        · simp [loginTypeOf, apiKeyOf, loginTypeSpec, apiKeyNonBlank, hk, refreshLogin_spec]
  · intro k hk
    show loginTypeOf (JsonVal.obj [("OPENAI_API_KEY", JsonVal.str k)]) = some "api_key"
    have hg : jGet [("OPENAI_API_KEY", JsonVal.str k)] "OPENAI_API_KEY"
        = some (JsonVal.str k) := rfl
    simp [loginTypeOf, apiKeyOf, hg, hk]

/-- Witness for C6: a document holding only `OPENAI_API_KEY = "sk-x"` yields
`login_type = api_key`. -/
theorem login_type_precedence_witness :
    (pyStrip "sk-x" == "") = false ∧
    (extractAuthInfo (JsonVal.obj [("OPENAI_API_KEY", JsonVal.str "sk-x")])).login_type
      = some "api_key" :=
  ⟨by decide, (login_type_precedence JsonVal.null).2.2 "sk-x" (by decide)⟩

/-- C7: identity extraction is total and never raises.  The token is split on
`.`; with fewer than two segments nothing is decoded; otherwise the second
segment is padded with `=` to a multiple of four characters and fed through
base64url decoding, UTF-8 decoding and JSON parsing (requiring a dict); and
whenever decoding fails, the extracted email is empty rather than an error. -/
theorem jwt_decode_pipeline (auth : JsonVal) :
    (∀ tok : String, (pySplitDot tok).length < 2 → decodeJwtPayload tok = none) ∧
    (∀ p : String, (padB64 p).data.length % 4 = 0) ∧
    (∀ tok h0 p1 rest, pySplitDot tok = h0 :: p1 :: rest →
      decodeJwtPayload tok = decodeJwtSegmentSpec p1) ∧
    ((extractAuthInfo auth).email =
      match idTokenOf auth with
      | some tok =>
        (match decodeJwtPayload tok with
         | some payload => emailFromPayload payload
         | none => none)
      | none => none) := by
  refine ⟨?_, ?_, ?_, rfl⟩
  · intro tok h
    rcases hs : pySplitDot tok with _ | ⟨a, rest⟩
    · rw [decodeJwtPayload, hs]
    · rcases rest with _ | ⟨b, r⟩
      · rw [decodeJwtPayload, hs]
      · rw [hs] at h
        simp only [List.length_cons] at h
        omega
  · intro p
    rw [padB64, strData_append]
    show (p.data ++ List.replicate ((4 - p.data.length % 4) % 4) '=').length % 4 = 0
    simp only [List.length_append, List.length_replicate]
    omega
  · intro tok h0 p1 rest hs
    rw [decodeJwtPayload, hs, decodeJwtSegmentSpec]

/-- Witness for C7: `"x"` splits into a single segment, so no payload is
decoded; and a well-formed token whose payload segment decodes to
`{"email":"a@b.com"}` yields exactly that payload dict. -/
theorem jwt_decode_pipeline_witness :
    (pySplitDot "x").length < 2 ∧
    decodeJwtPayload "x" = none ∧
    decodeJwtPayload "h.eyJlbWFpbCI6ImFAYi5jb20ifQ"
      = some [("email", JsonVal.str "a@b.com")] :=
  ⟨by decide, (jwt_decode_pipeline JsonVal.null).1 "x" (by decide), rfl⟩

/-- C8: in `newest` mode (with the bridge active: WSL detected, no explicit
`CODEX_HOME`, host home found), when exactly one of the two credential files
exists it is copied to the other side; when both exist and their modification
times differ by at least one second the newer content is copied over the
older side; within one second nothing is written. -/
theorem sync_newest_policy (env : BridgeEnv)
    (hw : env.isWsl = true)
    (hch : envTruthy env.codexHomeEnv = false)
    (hwh : env.winHomeFound = true)
    (hm : bridgeMode env = "newest") :
    (∀ c m, env.winAuth = some (c, m) → env.wslAuth = none →
      (syncWslWindowsAuth env).1 = [BridgeWrite.toWsl c]) ∧
    (∀ c m, env.wslAuth = some (c, m) → env.winAuth = none →
      (syncWslWindowsAuth env).1 = [BridgeWrite.toWin c]) ∧
    (∀ wc wm lc lm, env.winAuth = some (wc, wm) → env.wslAuth = some (lc, lm) →
      ((1 : Rat) ≤ |wm - lm| →
        (syncWslWindowsAuth env).1
          = if wm > lm then [BridgeWrite.toWsl wc] else [BridgeWrite.toWin lc]) ∧
      (|wm - lm| < 1 → (syncWslWindowsAuth env).1 = [])) := by
  refine ⟨?_, ?_, ?_⟩
  · intro c m hwin hwsl
    simp [syncWslWindowsAuth, hw, hch, hwh, hm, hwin, hwsl]
  · intro c m hwsl hwin
    simp [syncWslWindowsAuth, hw, hch, hwh, hm, hwin, hwsl]
  · intro wc wm lc lm hwin hwsl
    constructor
    · intro hge
      have hlt : ¬ (|wm - lm| < 1) := not_lt.mpr hge
      simp only [syncWslWindowsAuth, hw, hch, hwh, hm, hwin, hwsl, hlt]
      by_cases hc : lm < wm <;> simp [hc]
    · intro hlt
      simp [syncWslWindowsAuth, hw, hch, hwh, hm, hwin, hwsl, hlt]

/-- Witness for C8: host credential `"W"` exists, the local one does not, so
`newest` mode imports it. -/
theorem sync_newest_policy_witness :
    (syncWslWindowsAuth ⟨true, none, some "newest", true, some ("W", 10), none⟩).1
      = [BridgeWrite.toWsl "W"] :=
  (sync_newest_policy ⟨true, none, some "newest", true, some ("W", 10), none⟩
    rfl (by decide) rfl (by decide)).1 "W" 10 rfl rfl

/-- C9: in `bootstrap` mode (bridge active), a pre-existing local credential
means no write at all — even when a host credential exists; the host
credential is imported only when the local one is absent and the host one was
found; and no input ever makes bootstrap mode write the host side. -/
theorem sync_bootstrap_policy (env : BridgeEnv)
    (hw : env.isWsl = true)
    (hch : envTruthy env.codexHomeEnv = false)
    (hwh : env.winHomeFound = true)
    (hm : bridgeMode env = "bootstrap") :
    (∀ p, env.wslAuth = some p → (syncWslWindowsAuth env).1 = []) ∧
    (env.wslAuth = none → ∀ c m, env.winAuth = some (c, m) →
      (syncWslWindowsAuth env).1 = [BridgeWrite.toWsl c]) ∧
    (env.wslAuth = none → env.winAuth = none → (syncWslWindowsAuth env).1 = []) ∧
    (∀ c, BridgeWrite.toWin c ∉ (syncWslWindowsAuth env).1) := by
  refine ⟨?_, ?_, ?_, ?_⟩
  · intro p hwsl
    simp [syncWslWindowsAuth, hw, hch, hwh, hm, hwsl]
  · intro hwsl c m hwin
    simp [syncWslWindowsAuth, hw, hch, hwh, hm, hwsl, hwin]
  · intro hwsl hwin
    simp [syncWslWindowsAuth, hw, hch, hwh, hm, hwsl, hwin]
  · intro c
    rcases hwsl : env.wslAuth with _ | p
    · rcases hwin : env.winAuth with _ | wc
      · simp [syncWslWindowsAuth, hw, hch, hwh, hm, hwsl, hwin]
      · simp [syncWslWindowsAuth, hw, hch, hwh, hm, hwsl, hwin]
    · simp [syncWslWindowsAuth, hw, hch, hwh, hm, hwsl]

/-- Witness for C9: local credential `"L"` exists, so bootstrap performs no
write although a host credential `"W"` exists. -/
theorem sync_bootstrap_policy_witness :
    (syncWslWindowsAuth ⟨true, none, none, true, some ("W", 5), some ("L", 7)⟩).1 = [] :=
  (sync_bootstrap_policy ⟨true, none, none, true, some ("W", 5), some ("L", 7)⟩
    rfl (by decide) rfl (by decide)).1 ("L", 7) rfl

/-- C1: if the profile's credential file exists, `switch_to_profile` succeeds,
leaves the active credential holding exactly the profile's bytes and — when an
active credential existed and the timestamped backup name is fresh (the spec
allows same-second collisions to overwrite) — creates exactly one new backup
holding the pre-switch active credential, leaving all other backups unchanged;
without a pre-existing active credential the backup area is untouched.  If the
profile's credential file is missing the call fails with `NotFound` and the
state (in particular the active credential) is unchanged. -/
theorem switch_to_profile_correct (home ts pname : String) (s : Sys)
    (hfresh : s.backups.find? (fun kv => kv.1 == backupFileName ts) = none) :
    (∀ b, nodesAuthLookup s.profiles pname = some b →
      (switchToProfile home ts pname s).2 = Except.ok () ∧
      (switchToProfile home ts pname s).1.auth = some b ∧
      (∀ a, s.auth = some a →
        (switchToProfile home ts pname s).1.backups.length = s.backups.length + 1 ∧
        assocLookup (switchToProfile home ts pname s).1.backups (backupFileName ts) = some a ∧
        ∀ k, k ≠ backupFileName ts →
          assocLookup (switchToProfile home ts pname s).1.backups k = assocLookup s.backups k) ∧
      (s.auth = none → (switchToProfile home ts pname s).1.backups = s.backups)) ∧
    (nodesAuthLookup s.profiles pname = none →
      errKindE (switchToProfile home ts pname s).2 = some ErrKind.notFound ∧
      (switchToProfile home ts pname s).1 = s) := by
  constructor
  · intro b hb
    refine ⟨?_, ?_, ?_, ?_⟩
    · rw [switchToProfile, hb]
    · rw [switchToProfile, hb]
    · intro a ha
      rw [switchToProfile, hb]
      simp only [backupCurrentAuth, ha]
      rw [insertReplace_fresh _ _ _ hfresh]
      refine ⟨by simp, assocLookup_append_self _ _ _ hfresh, ?_⟩
      intro k hk
      exact assocLookup_append_other _ _ _ _ hk
    · intro ha
      rw [switchToProfile, hb]
      simp only [backupCurrentAuth, ha]
  · intro hb
    rw [switchToProfile, hb]
    exact ⟨rfl, rfl⟩

/-- Witness for C1: switching to profile `"p"` (credential `"NEW"`) with
active credential `"OLD"` succeeds, installs `"NEW"`, and adds exactly one
backup holding `"OLD"`. -/
theorem switch_to_profile_correct_witness :
    (switchToProfile "/h" "20240115T103000Z" "p"
        ⟨some "OLD", true, [⟨"p", some "NEW", none⟩], [], []⟩).2 = Except.ok () ∧
    (switchToProfile "/h" "20240115T103000Z" "p"
        ⟨some "OLD", true, [⟨"p", some "NEW", none⟩], [], []⟩).1.auth = some "NEW" ∧
    (switchToProfile "/h" "20240115T103000Z" "p"
        ⟨some "OLD", true, [⟨"p", some "NEW", none⟩], [], []⟩).1.backups.length = 1 ∧
    assocLookup
      (switchToProfile "/h" "20240115T103000Z" "p"
        ⟨some "OLD", true, [⟨"p", some "NEW", none⟩], [], []⟩).1.backups
      (backupFileName "20240115T103000Z") = some "OLD" := by
  have h := (switch_to_profile_correct "/h" "20240115T103000Z" "p"
    ⟨some "OLD", true, [⟨"p", some "NEW", none⟩], [], []⟩ (by decide)).1 "NEW" (by decide)
  exact ⟨h.1, h.2.1, (h.2.2.1 "OLD" rfl).1, (h.2.2.1 "OLD" rfl).2.1⟩

/-- C2 counterexample: the trace of a switch with an existing active
credential contains a plain write at the backup's final destination name
(`shutil.copy2` writes the backup directly, not via a temporary sibling), so
not every write of a switch operation lands in a `.tmp` sibling first. -/
theorem switch_backup_write_not_tmp :
    allWritesViaTmp
      ((switchToProfile "/h" "20240115T103000Z" "p"
        ⟨some "OLD", true, [⟨"p", some "NEW", none⟩], [], []⟩).1.events) = false := by
  decide

/-- C2 (amended): every write of `save_current_as_profile` (snapshot copy and
metadata) first lands in a temporary sibling and reaches its final name only
by rename; in `switch_to_profile` the same holds for the active-credential
write, while the timestamped backup is the one file written directly at its
final name by `shutil.copy2`. -/
theorem save_switch_writes_via_tmp (home nowIso ts name pname : String)
    (isNT ow : Bool) (s : Sys) (hev : s.events = []) :
    allWritesViaTmp ((saveCurrentAsProfile home nowIso name isNT ow s).1.events) = true ∧
    allWritesViaTmpExcept (backupFilePath home ts)
      ((switchToProfile home ts pname s).1.events) = true := by
  constructor
  · rcases hv : validateProfileName isNT name with e | vname
    · simp [saveCurrentAsProfile, hv, hev, allWritesViaTmp]
    · rcases ha : s.auth with _ | a
      · simp [saveCurrentAsProfile, hv, ha, hev, allWritesViaTmp]
      · by_cases hex : (s.profiles.find? (fun e => e.name == vname)).isSome ∧ ¬ ow
        · rw [saveCurrentAsProfile, hv, ha]
          simp only [if_pos hex]
          simp [hev, allWritesViaTmp]
        · rcases hr : readAuthInfoFromContent a with e | info
          · rw [saveCurrentAsProfile, hv, ha]
            simp only [if_neg hex, hr]
            simp [hev, allWritesViaTmp, copyFilePrivateEvents, isTmpPathB_tmpName]
          · rw [saveCurrentAsProfile, hv, ha]
            simp only [if_neg hex, hr]
            simp [hev, allWritesViaTmp, copyFilePrivateEvents, writeTextPrivateEvents,
              isTmpPathB_tmpName]
  · rcases hp : nodesAuthLookup s.profiles pname with _ | c
    · simp [switchToProfile, hp, hev, allWritesViaTmpExcept]
    · rcases ha : s.auth with _ | a
      · simp [switchToProfile, hp, backupCurrentAuth, ha, hev, allWritesViaTmpExcept,
          copyFilePrivateEvents, isTmpPathB_tmpName]
      · simp [switchToProfile, hp, backupCurrentAuth, ha, hev, allWritesViaTmpExcept,
          copyFilePrivateEvents, isTmpPathB_tmpName]

/-- Witness for C2 (amended): all writes of a concrete save are `.tmp`-bound,
and a concrete switch's writes are `.tmp`-bound except the backup file. -/
theorem save_switch_writes_via_tmp_witness :
    allWritesViaTmp
      ((saveCurrentAsProfile "/h" "t" "work" false false
        ⟨some "null", true, [⟨"p", some "NEW", none⟩], [], []⟩).1.events) = true ∧
    allWritesViaTmpExcept (backupFilePath "/h" "T")
      ((switchToProfile "/h" "T" "p"
        ⟨some "null", true, [⟨"p", some "NEW", none⟩], [], []⟩).1.events) = true :=
  save_switch_writes_via_tmp "/h" "t" "T" "work" "p" false false
    ⟨some "null", true, [⟨"p", some "NEW", none⟩], [], []⟩ rfl

/-- C3 counterexample: `"_x"` passes name validation (so it is a valid profile
name) and saving under it succeeds, yet `list_profiles` skips `_`-prefixed
directories, so the subsequent listing has no entry named `"_x"` — not exactly
one. -/
theorem save_underscore_profile_hidden :
    validateProfileName false "_x" = Except.ok "_x" ∧
    exceptIsOk
      (saveCurrentAsProfile "/h" "t" "_x" false false
        ⟨some "null", false, [], [], []⟩).2 = true ∧
    (listProfilesM
      (saveCurrentAsProfile "/h" "t" "_x" false false
        ⟨some "null", false, [], [], []⟩).1).filter (fun x => x.name == "_x") = [] := by
  refine ⟨rfl, rfl, ?_⟩
  decide

/-- C3 (amended with: the stripped name must not begin with an underscore,
since `_`-prefixed directories are reserved and skipped by the listing): for a
valid such name, with an active credential present and no blocked overwrite,
`save_current_as_profile` followed by `list_profiles` yields exactly one entry
with that name, whose stored snapshot credential is byte-identical to the
active credential at save time. -/
theorem save_then_list_unique (home nowIso name vname a : String) (isNT ow : Bool) (s : Sys)
    (hv : validateProfileName isNT name = Except.ok vname)
    (hus : startsWithUnderscore vname = false)
    (ha : s.auth = some a)
    (hnd : (s.profiles.map (fun e => e.name)).Nodup)
    (hfr : (s.profiles.find? (fun e => e.name == vname)).isSome = true → ow = true) :
    (listProfilesM (saveCurrentAsProfile home nowIso name isNT ow s).1).filter
      (fun x => x.name == vname) = [⟨vname, a, authInfoOfContent a⟩] := by
  have hcond : ¬ ((s.profiles.find? (fun e => e.name == vname)).isSome = true ∧ ¬ (ow = true)) := by
    rintro ⟨h1, h2⟩
    exact h2 (hfr h1)
  have hmain := entries_after_save s.profiles vname a hnd hus
  rcases hr : readAuthInfoFromContent a with e | info
  · rw [saveCurrentAsProfile, hv, ha]
    simp only [if_neg hcond, hr]
    show (listProfilesM
      ⟨some a, true, setProfileAuth (mkdirProfileDir s.profiles vname) vname a,
        s.backups, s.events ++ copyFilePrivateEvents (profileDirPath home vname ++ "/auth.json") a⟩).filter
        (fun x => x.name == vname) = _
    rw [listProfilesM]
    simp only [if_pos rfl]
    exact listProfiles_filter_singleton hmain
  · rw [saveCurrentAsProfile, hv, ha]
    simp only [if_neg hcond, hr]
    show (listProfilesM
      ⟨some a, true,
        setProfileMeta (setProfileAuth (mkdirProfileDir s.profiles vname) vname a) vname
          (metaJson vname nowIso info),
        s.backups, _⟩).filter (fun x => x.name == vname) = _
    rw [listProfilesM]
    simp only [if_pos rfl]
    apply listProfiles_filter_singleton
    rw [profileEntriesOf_setMeta]
    exact hmain

/-- Witness for C3: saving `"work"` into an empty registry and listing shows
exactly the one entry `"work"` with the saved bytes. -/
theorem save_then_list_unique_witness :
    (listProfilesM
      (saveCurrentAsProfile "/h" "t" "work" false false
        ⟨some "null", false, [], [], []⟩).1).filter (fun x => x.name == "work")
      = [⟨"work", "null", authInfoOfContent "null"⟩] :=
  save_then_list_unique "/h" "t" "work" "work" "null" false false
    ⟨some "null", false, [], [], []⟩ rfl (by decide) rfl (by decide) (by decide)

/-- C4: with a valid (stripped) name, `save_current_as_profile` fails with
`NotFound` when no active credential exists (state untouched); fails with
`AlreadyExists` when the target directory exists and `overwrite` is false
(profiles, active credential and backups untouched); and with
`overwrite = true` and a JSON active credential it succeeds and the stored
snapshot equals the current active credential. -/
theorem save_error_cases (home nowIso vname : String) (isNT : Bool) (s : Sys)
    (hv : validateProfileName isNT vname = Except.ok vname) :
    (∀ ow, s.auth = none →
      errKindE (saveCurrentAsProfile home nowIso vname isNT ow s).2 = some ErrKind.notFound ∧
      (saveCurrentAsProfile home nowIso vname isNT ow s).1 = s) ∧
    (∀ a, s.auth = some a →
      (s.profiles.find? (fun e => e.name == vname)).isSome = true →
      errKindE (saveCurrentAsProfile home nowIso vname isNT false s).2
        = some ErrKind.alreadyExists ∧
      (saveCurrentAsProfile home nowIso vname isNT false s).1.profiles = s.profiles ∧
      (saveCurrentAsProfile home nowIso vname isNT false s).1.auth = s.auth ∧
      (saveCurrentAsProfile home nowIso vname isNT false s).1.backups = s.backups) ∧
    (∀ a, s.auth = some a → (jsonParse a).isSome = true →
      exceptIsOk (saveCurrentAsProfile home nowIso vname isNT true s).2 = true ∧
      nodesAuthLookup (saveCurrentAsProfile home nowIso vname isNT true s).1.profiles vname
        = some a) := by
  refine ⟨?_, ?_, ?_⟩
  · intro ow ha
    rw [saveCurrentAsProfile, hv, ha]
    exact ⟨rfl, rfl⟩
  · intro a ha hex
    simp only [saveCurrentAsProfile, hv, ha]
    split
    · exact ⟨rfl, rfl, rfl, rfl⟩
    · rename_i hcond
      exact absurd ⟨hex, by simp⟩ hcond
  · intro a ha hj
    have hro : ∃ i, readAuthInfoFromContent a = Except.ok i := by
      rcases hp : jsonParse a with _ | v
      · rw [hp] at hj
        exact Bool.noConfusion hj
      · cases v <;> exact ⟨_, by rw [readAuthInfoFromContent, hp]⟩
    obtain ⟨i, hro⟩ := hro
    simp only [saveCurrentAsProfile, hv, ha, hro]
    split
    · rename_i hcond
      exact (hcond.2 (by trivial)).elim
    · exact ⟨rfl, by rw [nodesAuthLookup_setMeta, nodesAuthLookup_save]⟩

/-- Witness for C4: the spec's concrete scenario — home `/tmp/h`, no
`auth.json`, `save("x")` fails `NotFound`; and with an active credential and
an existing profile directory `"x"`, `save("x")` without overwrite fails
`AlreadyExists` while overwrite succeeds and replaces the snapshot. -/
theorem save_error_cases_witness :
    validateProfileName false "x" = Except.ok "x" ∧
    errKindE (saveCurrentAsProfile "/tmp/h" "t" "x" false false
      ⟨none, false, [], [], []⟩).2 = some ErrKind.notFound ∧
    errKindE (saveCurrentAsProfile "/tmp/h" "t" "x" false false
      ⟨some "2", false, [⟨"x", some "1", none⟩], [], []⟩).2 = some ErrKind.alreadyExists ∧
    nodesAuthLookup (saveCurrentAsProfile "/tmp/h" "t" "x" false true
      ⟨some "2", false, [⟨"x", some "1", none⟩], [], []⟩).1.profiles "x" = some "2" := by
  refine ⟨rfl, ?_, ?_, ?_⟩
  · exact ((save_error_cases "/tmp/h" "t" "x" false ⟨none, false, [], [], []⟩ rfl).1 false rfl).1
  · exact ((save_error_cases "/tmp/h" "t" "x" false
      ⟨some "2", false, [⟨"x", some "1", none⟩], [], []⟩ rfl).2.1 "2" rfl (by decide)).1
  · exact ((save_error_cases "/tmp/h" "t" "x" false
      ⟨some "2", false, [⟨"x", some "1", none⟩], [], []⟩ rfl).2.2 "2" rfl (by decide)).2
